import Mathlib

/-!
Shallow embedding of the task-filtering engine of ticktick-mcp
(src/ticktick_mcp/tools/filter_tools.py and src/ticktick_mcp/helpers.py).

Tasks are Python dicts; we embed them as association lists from string
keys to a small dynamic-value type covering the shapes the engine
inspects (strings, integers, booleans, null, lists of strings).
Dates are triples of year/month/day compared lexicographically, exactly
as Python `datetime.date` comparison behaves.
-/

namespace TickTickMcp

/-- Dynamic values stored in a task dict or a parsed filters object.
Values outside these shapes (nested dicts, lists of non-strings, floats)
are not inspected by any code path a claim exercises. -/
inductive FieldVal where
  | vStr (s : String)
  | vInt (n : Int)
  | vBool (b : Bool)
  | vNull
  | vList (xs : List String)
deriving DecidableEq, Repr

/-- A task record as handed to the engine: a Python `Dict[str, Any]`. -/
abbrev TaskDict := List (String × FieldVal)

/-- A decoded `filters_json` object: a Python `Dict[str, Any]`. -/
abbrev Filters := List (String × FieldVal)

/-- Python `task.get(k)`: `none` when the key is absent. -/
def dictGet (t : TaskDict) (k : String) : Option FieldVal :=
  t.lookup k

/-- Python `datetime.date`: year, month, day. -/
structure PyDate where
  year : Nat
  month : Nat
  day : Nat
deriving DecidableEq, Repr

/-- Python `date` strict comparison `a < b` (lexicographic on y, m, d). -/
def dateLtB (a b : PyDate) : Bool :=
  if a.year ≠ b.year then decide (a.year < b.year)
  else if a.month ≠ b.month then decide (a.month < b.month)
  else decide (a.day < b.day)

/-- Python `date` comparison `a ≤ b`, definitionally the negation of `b < a`. -/
def dateLeB (a b : PyDate) : Bool :=
  !(dateLtB b a)

/-- Gregorian leap-year rule used by `datetime`. -/
def isLeapYear (y : Nat) : Bool :=
  y % 4 == 0 && (y % 100 != 0 || y % 400 == 0)

/-- Number of days in a month, as validated by `datetime.date`. -/
def daysInMonth (y m : Nat) : Nat :=
  if m == 2 then (if isLeapYear y then 29 else 28)
  else if m == 4 || m == 6 || m == 9 || m == 11 then 30
  else 31

/-- Numeric value of a decimal digit character. -/
def digitVal (c : Char) : Nat :=
  c.toNat - 48

/-- Parse exactly ten characters of the shape YYYY-MM-DD into a valid
calendar date, as `datetime.datetime.strptime(s, "%Y-%m-%d")` does on a
ten-character string: fixed digit positions, and the year, month and day
are range-checked (year at least 1, day checked against the month). -/
def parseYMD10 (cs : List Char) : Option PyDate :=
  match cs with
  | [y1, y2, y3, y4, s1, m1, m2, s2, d1, d2] =>
    if y1.isDigit && y2.isDigit && y3.isDigit && y4.isDigit && s1 == '-' &&
       m1.isDigit && m2.isDigit && s2 == '-' && d1.isDigit && d2.isDigit then
      let y := ((digitVal y1 * 10 + digitVal y2) * 10 + digitVal y3) * 10 + digitVal y4
      let m := digitVal m1 * 10 + digitVal m2
      let d := digitVal d1 * 10 + digitVal d2
      if 1 ≤ y ∧ 1 ≤ m ∧ m ≤ 12 ∧ 1 ≤ d ∧ d ≤ daysInMonth y m then
        some ⟨y, m, d⟩
      else none
    else none
  | _ => none

/-- Embedding of `helpers._parse_due_date`: a falsy or non-string value
yields `none`; otherwise the first ten characters of the string are
parsed strictly as YYYY-MM-DD, shorter strings yield `none`.  No
timezone information is consulted. -/
def parseDueDate (v : Option FieldVal) : Option PyDate :=
  match v with
  | some (.vStr s) =>
    if s.isEmpty then none
    else if 10 ≤ s.length then parseYMD10 (s.toList.take 10)
    else none
  | _ => none

/-- Components of a parsed `datetime.datetime`: the written calendar
date, the written wall-clock time, and the UTC offset in minutes when
the string carried one.  `fromisoformat` stores components verbatim. -/
structure PyDateTime where
  date : PyDate
  hour : Nat
  minute : Nat
  second : Nat
  offset : Option Int
deriving DecidableEq, Repr

/-- Parse HH:MM or HH:MM:SS from a character list, returning the time
and the remaining characters. -/
def parseTimeHMS (cs : List Char) : Option (Nat × Nat × Nat × List Char) :=
  match cs with
  | h1 :: h2 :: ':' :: m1 :: m2 :: rest =>
    if h1.isDigit && h2.isDigit && m1.isDigit && m2.isDigit then
      let h := digitVal h1 * 10 + digitVal h2
      let m := digitVal m1 * 10 + digitVal m2
      if h ≤ 23 ∧ m ≤ 59 then
        match rest with
        | ':' :: s1 :: s2 :: rest2 =>
          if s1.isDigit && s2.isDigit then
            let s := digitVal s1 * 10 + digitVal s2
            if s ≤ 59 then some (h, m, s, rest2) else none
          else none
        | _ => some (h, m, 0, rest)
      else none
    else none
  | _ => none

/-- Parse a trailing UTC offset of the shape +HH:MM or -HH:MM. -/
def parseOffsetTail (cs : List Char) : Option (Option Int) :=
  match cs with
  | [] => some none
  | sign :: rest =>
    if sign == '+' || sign == '-' then
      match parseTimeHMS rest with
      | some (h, m, 0, []) =>
        let mins : Int := Int.ofNat (h * 60 + m)
        some (some (if sign == '-' then -mins else mins))
      | _ => none
    else none

/-- Embedding of `datetime.datetime.fromisoformat` restricted to the
shapes the engine receives: a bare date YYYY-MM-DD, or a date followed
by a separator and a time HH:MM[:SS], optionally with a numeric UTC
offset.  Other ISO variants are treated as unparseable. -/
def pyFromisoformat (s : String) : Option PyDateTime :=
  let cs := s.toList
  if cs.length == 10 then
    (parseYMD10 cs).map (fun d => ⟨d, 0, 0, 0, none⟩)
  else
    match parseYMD10 (cs.take 10), cs.drop 10 with
    | some d, sep :: rest =>
      if sep == 'T' || sep == ' ' then
        match parseTimeHMS rest with
        | some (h, m, sec, tail) =>
          match parseOffsetTail tail with
          | some off => some ⟨d, h, m, sec, off⟩
          | none => none
        | none => none
      else none
    | _, _ => none

/-- Embedding of `TaskFilterer._parse_optional_iso_date`.  Both source
branches return the calendar date exactly as written in the string:
`dt.replace(tzinfo=timezone)` attaches a zone without converting, and
`.date()` drops the time and any offset, so the configured timezone
never changes the returned date (it only affects logging).  The `tz`
and `validTz` parameters are kept for signature fidelity.  The fallback
branch (`datetime.date.fromisoformat`) accepts only a bare YYYY-MM-DD,
which the first branch already covers. -/
def parseOptionalIsoDate (dateIso : Option String) (_tz : Option String)
    (_validTz : String → Bool) : Option PyDate :=
  match dateIso with
  | none => none
  | some s =>
    if s.isEmpty then none
    else
      match pyFromisoformat s with
      | some dt => some dt.date
      | none =>
        if s.toList.length == 10 then parseYMD10 s.toList else none

/-- Embedding of `TaskFilterer._get_current_date`.  The ambient clock is
the parameter `nowAt`: `nowAt (some z)` is the current date in zone `z`
and `nowAt none` the current date in system local time.  A provided but
unrecognized zone name falls back to local time (with a logged
warning in the source). -/
def getCurrentDate (nowAt : Option String → PyDate) (validTz : String → Bool)
    (tz : Option String) : PyDate :=
  match tz with
  | some z => if validTz z then nowAt (some z) else nowAt none
  | none => nowAt none

/-- Outcome of `json.loads` on the `filters_json` argument, decoded
ahead of time: syntactically invalid JSON, valid JSON that is not an
object, or a decoded object. -/
inductive FiltersJson where
  | invalidJson
  | notObject
  | obj (f : Filters)
deriving Repr

/-- Result record of `TaskFilterer._parse_filter_inputs`. -/
structure ParsedInputs where
  filters : Filters
  filterDueStartDate : Option PyDate
  filterDueEndDate : Option PyDate
  error : Option String
deriving Repr

/-- Embedding of `TaskFilterer._parse_filter_inputs`.  A falsy
`filters_json` (absent or empty string) is modelled as `none`.  Due
bounds are parsed only on the uncompleted branch; when both iso inputs
are absent and `include_overdue` is false, today in the query timezone
is injected as the start bound. -/
def parseFilterInputs (status : String) (filtersJson : Option FiltersJson)
    (dueStartIso dueEndIso : Option String) (includeOverdue : Bool)
    (tz : Option String) (validTz : String → Bool)
    (nowAt : Option String → PyDate) : ParsedInputs :=
  let base : ParsedInputs := ⟨[], none, none, none⟩
  match filtersJson with
  | some .invalidJson => { base with error := some "Invalid JSON format for filters." }
  | some .notObject =>
    { base with error := some "filters_json must be a JSON object (dictionary)." }
  | other =>
    let fs : Filters := match other with
      | some (.obj f) => f
      | _ => []
    if status == "uncompleted" then
      let ds := parseOptionalIsoDate dueStartIso tz validTz
      let de := parseOptionalIsoDate dueEndIso tz validTz
      if ds.isNone && de.isNone && (dueStartIso.isSome || dueEndIso.isSome) then
        { base with filters := fs, filterDueStartDate := none, filterDueEndDate := none }
      else if ds.isNone && de.isNone && dueStartIso.isNone && dueEndIso.isNone then
        if includeOverdue then
          { base with filters := fs, filterDueStartDate := none, filterDueEndDate := none }
        else
          { base with filters := fs,
                      filterDueStartDate := some (getCurrentDate nowAt validTz tz),
                      filterDueEndDate := none }
      else
        { base with filters := fs, filterDueStartDate := ds, filterDueEndDate := de }
    else
      { base with filters := fs }

/-- Python falsiness of an optional string: `None` or the empty string. -/
def optFalsy (o : Option String) : Bool :=
  match o with
  | none => true
  | some s => s.isEmpty

/-- Remote action or early outcome decided by
`TaskFilterer._fetch_tasks_by_status`: an error response returned to
the caller, a single `ticktick_client.task.get_completed` invocation
(with the parsed bounds, the `full` flag, and the timezone name), or
the per-project uncompleted fetch `_get_all_tasks_from_ticktick`. -/
inductive FetchResult where
  | errorResp (msg : String)
  | callGetCompleted (startDt endDt : Option PyDateTime) (full : Bool) (tz : Option String)
  | callUncompletedFetch
deriving DecidableEq, Repr

/-- Error message returned when neither completion bound is supplied. -/
def boundsRequiredMsg : String :=
  "At least one of completion_start_date_iso or completion_end_date_iso must be provided when filtering completed tasks."

/-- Error message for an unparseable completion bound.  The source
interpolates the Python exception text; the model keeps a fixed text
since no claim inspects it. -/
def badDateFormatMsg : String :=
  "Invalid date format. Use ISO format (YYYY-MM-DD or YYYY-MM-DDTHH:MM:SS)."

/-- Parse one completion bound: a falsy input contributes no bound, an
unparseable non-empty input is a `ValueError` (modelled as `none`). -/
def parseCompletionBound (o : Option String) : Option (Option PyDateTime) :=
  match o with
  | none => some none
  | some s =>
    if s.isEmpty then some none
    else (pyFromisoformat s).map some

/-- Embedding of `TaskFilterer._fetch_tasks_by_status`.  On the
completed branch the timezone is resolved first (an unrecognized name
returns an error response), then the presence of at least one
completion bound is required, then the bounds are parsed and the single
`get_completed` call is issued with `full = not include_time`.  Any
other status takes the uncompleted fetch path.  The
`dt.replace(tzinfo=...)` step attaches a zone to naive bounds without
changing their written components, so the parsed components are carried
as written. -/
def fetchTasksByStatus (status : String) (cStartIso cEndIso : Option String)
    (includeTime : Bool) (tz : Option String) (validTz : String → Bool) :
    FetchResult :=
  if status == "completed" then
    match tz with
    | some z =>
      if validTz z then
        if optFalsy cStartIso && optFalsy cEndIso then .errorResp boundsRequiredMsg
        else
          match parseCompletionBound cStartIso, parseCompletionBound cEndIso with
          | some sd, some ed => .callGetCompleted sd ed (!includeTime) tz
          | _, _ => .errorResp badDateFormatMsg
      else .errorResp ("Invalid timezone specified: " ++ z)
    | none =>
      if optFalsy cStartIso && optFalsy cEndIso then .errorResp boundsRequiredMsg
      else
        match parseCompletionBound cStartIso, parseCompletionBound cEndIso with
        | some sd, some ed => .callGetCompleted sd ed (!includeTime) tz
        | _, _ => .errorResp badDateFormatMsg
  else .callUncompletedFetch

/-- True exactly when the fetch decision is a `get_completed` call. -/
def isCallGetCompleted (r : FetchResult) : Bool :=
  match r with
  | .callGetCompleted _ _ _ _ => true
  | _ => false

/-- True exactly when the fetch decision is an error response. -/
def isErrorResp (r : FetchResult) : Bool :=
  match r with
  | .errorResp _ => true
  | _ => false

/-- Equality of the sets of elements of two string lists, as Python
`set(xs) == set(vs)`. -/
def listSetEq (xs vs : List String) : Bool :=
  xs.all (fun x => vs.contains x) && vs.all (fun v => xs.contains v)

/-- One key/value criterion of `TaskFilterer._apply_json_filters`.  For
the key `tags` the task value `task.get("tags", [])` must be a list
whose element set equals the set of the filter value (a non-list filter
value never matches in the model; in CPython a non-list, non-string
value there raises).  For any other key the task must contain the key
with an equal value. -/
def criterionMatches (task : TaskDict) (kv : String × FieldVal) : Bool :=
  if kv.1 == "tags" then
    match (dictGet task "tags").getD (.vList []) with
    | .vList xs =>
      match kv.2 with
      | .vList vs => listSetEq xs vs
      | _ => false
    | _ => false
  else
    match dictGet task kv.1 with
    | some v => v == kv.2
    | none => false

/-- A task matches a decoded filters object when every criterion holds
(the source loop breaks on the first failure). -/
def taskMatchesFilters (filters : Filters) (task : TaskDict) : Bool :=
  filters.all (criterionMatches task)

/-- Embedding of `TaskFilterer._apply_json_filters`: an empty filters
object returns the list unchanged, otherwise the loop keeps exactly the
tasks matching every criterion. -/
def applyJsonFilters (tasks : List TaskDict) (filters : Filters) : List TaskDict :=
  if filters.isEmpty then tasks
  else tasks.filter (taskMatchesFilters filters)

/-- Python truthiness of the `tag_label` argument: present and
non-empty. -/
def tagTruthy (tagLabel : Option String) : Bool :=
  match tagLabel with
  | some s => !s.isEmpty
  | none => false

/-- Whether `needle` occurs as a contiguous run inside `hay`. -/
def containsSeq (hay needle : List Char) : Bool :=
  match hay with
  | [] => needle.isEmpty
  | _ :: t => needle.isPrefixOf hay || containsSeq t needle

/-- The `tag_label` membership check guarded by `if tag_label:` in the
source: a falsy label filters nothing.  The task value
`task.get("tags", [])` is searched with Python `in`: list membership
for a list, substring containment for a string.  Other value shapes
raise in CPython and never match in the model. -/
def tagPassesB (tagLabel : Option String) (task : TaskDict) : Bool :=
  match tagLabel with
  | none => true
  | some lbl =>
    if lbl.isEmpty then true
    else
      match (dictGet task "tags").getD (.vList []) with
      | .vList xs => xs.contains lbl
      | .vStr s => containsSeq s.toList lbl.toList
      | _ => false

/-- The due-date continue-chain of the uncompleted branch of
`TaskFilterer._filter_task_list`: any bound present excludes a task
whose due date is absent or unparseable; otherwise the parsed date must
be at least the start bound and at most the end bound. -/
def duePassesB (startB endB : Option PyDate) (task : TaskDict) : Bool :=
  let dueDate := parseDueDate (dictGet task "dueDate")
  if (startB.isSome || endB.isSome) && dueDate.isNone then false
  else
    match dueDate with
    | some d =>
      if startB.any (fun s => dateLtB d s) then false
      else if endB.any (fun e => dateLtB e d) then false
      else true
    | none => true

/-- Embedding of `TaskFilterer._filter_task_list`: JSON filters first
(when non-empty), then for uncompleted status the due-date chain and
the tag check, for completed status with a truthy tag label only the
tag check, and otherwise the list is returned as is. -/
def filterTaskList (tasks : List TaskDict) (status : String) (filters : Filters)
    (startB endB : Option PyDate) (tagLabel : Option String) : List TaskDict :=
  let t1 := if !filters.isEmpty then applyJsonFilters tasks filters else tasks
  if status == "uncompleted" then
    t1.filter (fun task => duePassesB startB endB task && tagPassesB tagLabel task)
  else if status == "completed" && tagTruthy tagLabel then
    t1.filter (fun task => tagPassesB tagLabel task)
  else t1

/-- Sort key of step 4 of `TaskFilterer.filter`:
`t.get("priority", 0)`.  A present non-integer priority would make
CPython raise during comparison; the model reads it as 0. -/
def sortKeyPriority (t : TaskDict) : Int :=
  match dictGet t "priority" with
  | some (.vInt n) => n
  | _ => 0

/-- Stable descending insertion: walk past strictly greater keys so an
element inserted later lands after earlier equal-key elements. -/
def insertByPriority (t : TaskDict) (l : List TaskDict) : List TaskDict :=
  match l with
  | [] => [t]
  | h :: rest =>
    if sortKeyPriority t < sortKeyPriority h then h :: insertByPriority t rest
    else t :: h :: rest

/-- Embedding of `tasks.sort(key=priority, reverse=True)`: Python
`list.sort` is a stable sort, and `reverse=True` reverses the key
comparison without disturbing equal-key order. -/
def sortByPriorityDesc (ts : List TaskDict) : List TaskDict :=
  ts.foldr insertByPriority []

/-- Final outcome of `TaskFilterer.filter`: an error response string or
the ordered task list. -/
inductive FilterOutcome where
  | errorResp (msg : String)
  | tasks (ts : List TaskDict)
deriving DecidableEq, Repr

/-- Embedding of the `TaskFilterer.filter` pipeline: parse (aborting on
a parse error), fetch (aborting on a fetch error response), filter,
then optionally sort.  The remote collaborators are parameters: the
merged per-project uncompleted candidate set `uncompletedRemote`, and
`completedRemote` applied to the arguments of the `get_completed`
call (its dict-or-list result normalized to a list). -/
def runFilter (status : String) (filtersJson : Option FiltersJson)
    (dueStartIso dueEndIso cStartIso cEndIso : Option String)
    (includeTime includeOverdue : Bool) (tagLabel : Option String)
    (sortByPrio : Bool) (tz : Option String) (validTz : String → Bool)
    (nowAt : Option String → PyDate) (uncompletedRemote : List TaskDict)
    (completedRemote : Option PyDateTime → Option PyDateTime → Bool → List TaskDict) :
    FilterOutcome :=
  let p := parseFilterInputs status filtersJson dueStartIso dueEndIso includeOverdue tz validTz nowAt
  match p.error with
  | some e => .errorResp e
  | none =>
    match fetchTasksByStatus status cStartIso cEndIso includeTime tz validTz with
    | .errorResp m => .errorResp m
    | .callGetCompleted a b f _ =>
      let ts := filterTaskList (completedRemote a b f) status p.filters
        p.filterDueStartDate p.filterDueEndDate tagLabel
      .tasks (if sortByPrio then sortByPriorityDesc ts else ts)
    | .callUncompletedFetch =>
      let ts := filterTaskList uncompletedRemote status p.filters
        p.filterDueStartDate p.filterDueEndDate tagLabel
      .tasks (if sortByPrio then sortByPriorityDesc ts else ts)

/-- Spec-side period predicate, written from the spec words for
PeriodFilter matching: an absent task date matches only when both
bounds are absent; a present date matches when it is at least the start
bound (if any) and at most the end bound (if any), both inclusive. -/
def specPeriodPass (startB endB : Option PyDate) (taskDate : Option PyDate) : Bool :=
  match taskDate with
  | none => startB.isNone && endB.isNone
  | some d =>
    (startB.isNone || startB.any (fun s => dateLeB s d)) &&
    (endB.isNone || endB.any (fun e => dateLeB d e))

/-- Spec-side completion-range predicate, written from the spec words:
the completion PeriodFilter applied to the completedTime field of a
task at full precision of the parsed date. -/
def specCompletionPeriodMatches (startB endB : Option PyDate) (task : TaskDict) : Bool :=
  match dictGet task "completedTime" with
  | some (.vStr s) =>
    match pyFromisoformat s with
    | some dt => specPeriodPass startB endB (some dt.date)
    | none => specPeriodPass startB endB none
  | _ => specPeriodPass startB endB none

/-- Python truthiness of the configured timezone resolving: absent, or
present and recognized by the zone database. -/
def tzOkB (validTz : String → Bool) (tz : Option String) : Bool :=
  match tz with
  | none => true
  | some z => validTz z

/-- The task of the timezone-boundary example: due a half hour before
midnight UTC on 2024-03-01. -/
def boundaryDueTask : TaskDict :=
  [("id", .vStr "task1"), ("dueDate", .vStr "2024-03-01T23:30:00+00:00")]

/-- A task whose completion timestamp lies in 2020, far outside any
2024 completion range a request might ask for. -/
def staleCompletedTask : TaskDict :=
  [("id", .vStr "t9"), ("completedTime", .vStr "2020-05-05T10:00:00+00:00")]

/-! Shared helper lemmas. -/

theorem filter_filter_merge {α : Type} (p q : α → Bool) (l : List α) :
    List.filter p (List.filter q l) = List.filter (fun a => q a && p a) l := by
  induction l with
  | nil => rfl
  | cons a t ih =>
    by_cases hq : q a = true
    · by_cases hp : p a = true
      · simp [List.filter, hq, hp, ih]
      · simp only [Bool.not_eq_true] at hp
        simp [List.filter, hq, hp, ih]
    · simp only [Bool.not_eq_true] at hq
      simp [List.filter, hq, ih]

theorem filter_idem {α : Type} (p : α → Bool) (l : List α) :
    List.filter p (List.filter p l) = List.filter p l := by
  rw [filter_filter_merge]
  simp only [Bool.and_self]

theorem duePasses_open (task : TaskDict) : duePassesB none none task = true := by
  unfold duePassesB
  cases parseDueDate (dictGet task "dueDate") <;> simp

theorem perm_insertByPriority (t : TaskDict) (l : List TaskDict) :
    (insertByPriority t l).Perm (t :: l) := by
  induction l with
  | nil => exact List.Perm.refl _
  | cons h rest ih =>
    unfold insertByPriority
    by_cases hc : sortKeyPriority t < sortKeyPriority h
    · simp only [hc, if_pos]
      exact (ih.cons h).trans (List.Perm.swap t h rest)
    · simp only [hc, if_neg]
      exact List.Perm.refl _

theorem pairwise_insertByPriority (t : TaskDict) (l : List TaskDict)
    (hl : l.Pairwise (fun a b => sortKeyPriority b ≤ sortKeyPriority a)) :
    (insertByPriority t l).Pairwise (fun a b => sortKeyPriority b ≤ sortKeyPriority a) := by
  induction l with
  | nil => simp [insertByPriority]
  | cons h rest ih =>
    rw [List.pairwise_cons] at hl
    obtain ⟨hhead, hrest⟩ := hl
    unfold insertByPriority
    by_cases hc : sortKeyPriority t < sortKeyPriority h
    · rw [if_pos hc]
      rw [List.pairwise_cons]
      refine ⟨?_, ih hrest⟩
      intro x hx
      have hx2 : x ∈ t :: rest := (perm_insertByPriority t rest).mem_iff.mp hx
      rcases List.mem_cons.mp hx2 with hxt | hxr
      · subst hxt; exact le_of_lt hc
      · exact hhead x hxr
    · rw [if_neg hc]
      rw [List.pairwise_cons]
      refine ⟨?_, List.pairwise_cons.mpr ⟨hhead, hrest⟩⟩
      intro x hx
      rcases List.mem_cons.mp hx with hxh | hxr
      · subst hxh; exact le_of_not_lt hc
      · exact le_trans (hhead x hxr) (le_of_not_lt hc)

theorem filter_insertByPriority_ne (t : TaskDict) (l : List TaskDict) (n : Int)
    (h : (sortKeyPriority t == n) = false) :
    (insertByPriority t l).filter (fun x => sortKeyPriority x == n) =
      l.filter (fun x => sortKeyPriority x == n) := by
  induction l with
  | nil => simp [insertByPriority, List.filter, h]
  | cons hd rest ih =>
    unfold insertByPriority
    by_cases hc : sortKeyPriority t < sortKeyPriority hd
    · rw [if_pos hc]
      simp only [List.filter_cons]
      rw [ih]
    · rw [if_neg hc]
      simp [List.filter_cons, h]

theorem filter_insertByPriority_eq (t : TaskDict) (l : List TaskDict) (n : Int)
    (hsorted : l.Pairwise (fun a b => sortKeyPriority b ≤ sortKeyPriority a))
    (h : sortKeyPriority t = n) :
    (insertByPriority t l).filter (fun x => sortKeyPriority x == n) =
      t :: l.filter (fun x => sortKeyPriority x == n) := by
  induction l with
  | nil => simp [insertByPriority, List.filter, h]
  | cons hd rest ih =>
    rw [List.pairwise_cons] at hsorted
    unfold insertByPriority
    by_cases hc : sortKeyPriority t < sortKeyPriority hd
    · have hne : (sortKeyPriority hd == n) = false := by
        rw [beq_eq_false_iff_ne]
        intro he
        rw [← h] at he
        exact absurd he (ne_of_gt hc)
      rw [if_pos hc]
      have hih := ih hsorted.2
      simp [List.filter_cons, hne, hih]
    · rw [if_neg hc]
      simp [List.filter_cons, h]

theorem sortByPriorityDesc_pairwise (ts : List TaskDict) :
    (sortByPriorityDesc ts).Pairwise (fun a b => sortKeyPriority b ≤ sortKeyPriority a) := by
  induction ts with
  | nil => simp [sortByPriorityDesc]
  | cons a t ih => exact pairwise_insertByPriority a _ ih

theorem sortByPriorityDesc_filter (ts : List TaskDict) (n : Int) :
    (sortByPriorityDesc ts).filter (fun x => sortKeyPriority x == n) =
      ts.filter (fun x => sortKeyPriority x == n) := by
  induction ts with
  | nil => rfl
  | cons a t ih =>
    show (insertByPriority a (sortByPriorityDesc t)).filter _ = _
    by_cases ha : sortKeyPriority a = n
    · rw [filter_insertByPriority_eq a _ n (sortByPriorityDesc_pairwise t) ha, ih]
      simp [List.filter, ha]
    · have hne : (sortKeyPriority a == n) = false := beq_eq_false_iff_ne.mpr ha
      rw [filter_insertByPriority_ne a _ n hne, ih]
      simp [List.filter, hne]

theorem sortByPriorityDesc_perm (ts : List TaskDict) :
    (sortByPriorityDesc ts).Perm ts := by
  induction ts with
  | nil => exact List.Perm.refl _
  | cons a t ih =>
    exact (perm_insertByPriority a (sortByPriorityDesc t)).trans (ih.cons a)

theorem parse_error_none (status : String) (ds de : Option String) (io : Bool)
    (tz : Option String) (validTz : String → Bool) (nowAt : Option String → PyDate) :
    (parseFilterInputs status none ds de io tz validTz nowAt).error = none := by
  unfold parseFilterInputs
  dsimp only
  repeat' split
  all_goals rfl

/-- Combined keep-predicate of one pass of the filtering step: the JSON
criteria (vacuous when the filters object is empty) and the
status-dependent checks. -/
def keepPred (status : String) (filters : Filters) (startB endB : Option PyDate)
    (tagL : Option String) (task : TaskDict) : Bool :=
  (filters.isEmpty || taskMatchesFilters filters task) &&
  (if status == "uncompleted" then duePassesB startB endB task && tagPassesB tagL task
   else if status == "completed" && tagTruthy tagL then tagPassesB tagL task
   else true)

theorem filterTaskList_as_filter (ts : List TaskDict) (status : String) (filters : Filters)
    (startB endB : Option PyDate) (tagL : Option String) :
    filterTaskList ts status filters startB endB tagL
      = ts.filter (keepPred status filters startB endB tagL) := by
  unfold filterTaskList applyJsonFilters keepPred
  by_cases hf : filters.isEmpty = true
  · simp only [hf, Bool.not_true, Bool.false_eq_true, if_false, Bool.true_or, Bool.true_and]
    by_cases hu : (status == "uncompleted") = true
    · simp [hu]
    · simp only [hu, Bool.false_eq_true, if_false]
      by_cases hc : (status == "completed" && tagTruthy tagL) = true
      · simp [hc]
      · simp [hc]
  · have hf2 : filters.isEmpty = false := by
      simpa using hf
    simp only [hf2, Bool.not_false, if_true, Bool.false_eq_true, if_false, Bool.false_or]
    by_cases hu : (status == "uncompleted") = true
    · simp [hu, filter_filter_merge, Bool.and_comm]
    · by_cases hc : (status == "completed" && tagTruthy tagL) = true
      · simp [hu, hc, filter_filter_merge, Bool.and_comm]
      · simp [hu, hc]

/-- Spec-side reading of the JSON tags criterion: the tags value of the
task (the empty list when the key is absent) is a list whose element
set equals the element set of the filter value. -/
def specTagsSetCriterion (task : TaskDict) (V : List String) : Prop :=
  match (dictGet task "tags").getD (.vList []) with
  | .vList xs => ∀ x : String, x ∈ xs ↔ x ∈ V
  | _ => False

/-- Spec-side reading of the tag_label check: a falsy label matches
every task, and otherwise the label must occur in the task tags
(Python membership: list membership, or substring for a string). -/
def specTagMembership (task : TaskDict) (lbl : String) : Prop :=
  lbl = "" ∨
  match (dictGet task "tags").getD (.vList []) with
  | .vList xs => lbl ∈ xs
  | .vStr s => containsSeq s.toList lbl.toList = true
  | _ => False

/-! Claim theorems. -/

/-- C1, counterexample: the spec predicts that the task with dueDate
2024-03-01T23:30:00+00:00 matches the filter due_start_date=2024-03-02
when tz=Asia/Seoul (Seoul local date is 03-02).  The code extracts the
date from the first ten characters of the string with no timezone
conversion, so the task is excluded and the result is empty under
tz=Asia/Seoul exactly as under tz=UTC. -/
theorem claim_c1_counterexample :
    runFilter "uncompleted" none (some "2024-03-02") none none none false true none false
        (some "Asia/Seoul") (fun _ => true) (fun _ => ⟨2024, 3, 1⟩) [boundaryDueTask]
        (fun _ _ _ => [])
      = .tasks [] ∧
    runFilter "uncompleted" none (some "2024-03-02") none none none false true none false
        (some "UTC") (fun _ => true) (fun _ => ⟨2024, 3, 1⟩) [boundaryDueTask]
        (fun _ _ _ => [])
      = .tasks [] := by
  exact ⟨rfl, rfl⟩

/-- C1, amended: no timezone conversion is applied when extracting the
calendar date of a task dueDate — the date is parsed from the first ten
characters of the string — so the boundary task is excluded by the
filter due_start_date=2024-03-02 under every configured timezone, zone
database and clock. -/
theorem claim_c1_amended (tz : Option String) (validTz : String → Bool)
    (nowAt : Option String → PyDate) :
    runFilter "uncompleted" none (some "2024-03-02") none none none false true none false
        tz validTz nowAt [boundaryDueTask] (fun _ _ _ => [])
      = .tasks [] := by
  rfl

/-- C2, counterexample: with status=completed and both completion
bounds absent the operation returns an error response requiring a
bound, which is not the empty set of tasks the claim asserts. -/
theorem claim_c2_counterexample :
    runFilter "completed" none none none none none false true none false none
        (fun _ => true) (fun _ => ⟨2024, 1, 1⟩) [] (fun _ _ _ => [staleCompletedTask])
      = .errorResp boundsRequiredMsg ∧
    FilterOutcome.errorResp boundsRequiredMsg ≠ FilterOutcome.tasks ([] : List TaskDict) := by
  refine ⟨rfl, ?_⟩
  intro h
  cases h

/-- C2, amended: with status=completed, both completion bounds falsy
and a timezone that resolves, get_completed is never invoked and the
operation returns the bound-required error response instead of a task
list. -/
theorem claim_c2_amended (cs ce ds de : Option String) (it io sb : Bool)
    (tagL : Option String) (tz : Option String) (validTz : String → Bool)
    (nowAt : Option String → PyDate) (ur : List TaskDict)
    (cr : Option PyDateTime → Option PyDateTime → Bool → List TaskDict)
    (hcs : optFalsy cs = true) (hce : optFalsy ce = true)
    (htz : tzOkB validTz tz = true) :
    fetchTasksByStatus "completed" cs ce it tz validTz = .errorResp boundsRequiredMsg ∧
    isCallGetCompleted (fetchTasksByStatus "completed" cs ce it tz validTz) = false ∧
    runFilter "completed" none ds de cs ce it io tagL sb tz validTz nowAt ur cr
      = .errorResp boundsRequiredMsg := by
  have hf : fetchTasksByStatus "completed" cs ce it tz validTz = .errorResp boundsRequiredMsg := by
    unfold fetchTasksByStatus
    cases tz with
    | none => simp [hcs, hce]
    | some z =>
      have hv : validTz z = true := htz
      simp [hv, hcs, hce]
  refine ⟨hf, by rw [hf]; rfl, ?_⟩
  unfold runFilter
  dsimp only
  rw [parse_error_none, hf]

/-- C2, witness for the amended theorem at a concrete input. -/
theorem claim_c2_amended_witness :
    fetchTasksByStatus "completed" none none false none (fun _ => true)
      = .errorResp boundsRequiredMsg ∧
    isCallGetCompleted (fetchTasksByStatus "completed" none none false none (fun _ => true))
      = false ∧
    runFilter "completed" none none none none none false true none false none
        (fun _ => true) (fun _ => ⟨2024, 1, 1⟩) [] (fun _ _ _ => [])
      = .errorResp boundsRequiredMsg :=
  claim_c2_amended none none none none false true false none none (fun _ => true)
    (fun _ => ⟨2024, 1, 1⟩) [] (fun _ _ _ => []) rfl rfl rfl

/-- C3, counterexample: a status value outside the two recognized ones
is not rejected — the parser reports no error, the fetch decision is
the uncompleted fetch (a remote fetch IS performed), and the operation
completes returning the fetched tasks rather than a ValidationError. -/
theorem claim_c3_counterexample :
    (parseFilterInputs "someday" none none none true none (fun _ => true)
        (fun _ => ⟨2024, 1, 1⟩)).error = none ∧
    fetchTasksByStatus "someday" none none false none (fun _ => true)
      = .callUncompletedFetch ∧
    runFilter "someday" none none none none none false true none false none
        (fun _ => true) (fun _ => ⟨2024, 1, 1⟩) [staleCompletedTask] (fun _ _ _ => [])
      = .tasks [staleCompletedTask] := by
  exact ⟨rfl, rfl, rfl⟩

/-- C3, amended: any status value other than completed — including
values outside the documented enum — takes the uncompleted fetch path,
and the parser never reports an error when filters_json is absent, so
no ValidationError precedes a fetch. -/
theorem claim_c3_amended (status : String) (cs ce ds de : Option String)
    (it io : Bool) (tz : Option String) (validTz : String → Bool)
    (nowAt : Option String → PyDate) (h : status ≠ "completed") :
    fetchTasksByStatus status cs ce it tz validTz = .callUncompletedFetch ∧
    (parseFilterInputs status none ds de io tz validTz nowAt).error = none := by
  constructor
  · have hb : (status == "completed") = false := beq_eq_false_iff_ne.mpr h
    unfold fetchTasksByStatus
    rw [hb]
    rfl
  · exact parse_error_none status ds de io tz validTz nowAt

/-- C3, witness for the amended theorem at a concrete input. -/
theorem claim_c3_amended_witness :
    fetchTasksByStatus "someday" none none false none (fun _ => true)
      = .callUncompletedFetch ∧
    (parseFilterInputs "someday" none none none true none (fun _ => true)
        (fun _ => ⟨2024, 1, 1⟩)).error = none :=
  claim_c3_amended "someday" none none none none false true none (fun _ => true)
    (fun _ => ⟨2024, 1, 1⟩) (by decide)

/-- C4, counterexample: a fetched completed task whose completedTime
(2020-05-05) lies outside the requested completion range
2024-01-01..2024-01-31 still appears in the final result: the
filtering step applies no completion PeriodFilter after the fetch. -/
theorem claim_c4_counterexample :
    specCompletionPeriodMatches (some ⟨2024, 1, 1⟩) (some ⟨2024, 1, 31⟩) staleCompletedTask
      = false ∧
    runFilter "completed" none none none (some "2024-01-01") (some "2024-01-31") false true
        none false none (fun _ => true) (fun _ => ⟨2024, 1, 1⟩) [] (fun _ _ _ => [staleCompletedTask])
      = .tasks [staleCompletedTask] := by
  exact ⟨rfl, rfl⟩

/-- C4, amended: after the remote fetch no completion PeriodFilter is
re-applied — with no JSON filters and no tag label the completed branch
of the filtering step returns the fetched list unchanged, whatever the
requested completion bounds were, so boundary-day false positives from
a day-granularity remote call are not trimmed. -/
theorem claim_c4_amended (tasks : List TaskDict) (startB endB : Option PyDate) :
    filterTaskList tasks "completed" [] startB endB none = tasks := by
  rfl

/-- C5: the due-date check of the uncompleted branch coincides with the
spec period predicate applied to the parsed due date: both bounds
absent passes every task including one with an absent or unparseable
dueDate; any bound present excludes an absent or unparseable dueDate;
otherwise the parsed date must be at least the start bound and at most
the end bound, both inclusive. -/
theorem claim_c5 (startB endB : Option PyDate) (task : TaskDict) :
    duePassesB startB endB task
      = specPeriodPass startB endB (parseDueDate (dictGet task "dueDate")) := by
  unfold duePassesB specPeriodPass
  dsimp only
  cases parseDueDate (dictGet task "dueDate") with
  | none => cases startB <;> cases endB <;> rfl
  | some d =>
    cases startB with
    | none =>
      cases endB with
      | none => rfl
      | some e => cases he : dateLtB e d <;> simp [dateLeB, he]
    | some s =>
      cases hs : dateLtB d s with
      | true => cases endB <;> simp [dateLeB, hs]
      | false =>
        cases endB with
        | none => simp [dateLeB, hs]
        | some e => cases he : dateLtB e d <;> simp [dateLeB, hs, he]

/-- C6: an uncompleted request with no due bounds and
include_overdue=false gets today in the query timezone injected as the
start bound; with include_overdue=true no bound is injected and the
due-date check passes every task. -/
theorem claim_c6 (tz : Option String) (validTz : String → Bool)
    (nowAt : Option String → PyDate) (f : Filters) :
    (parseFilterInputs "uncompleted" (some (.obj f)) none none false tz validTz
        nowAt).filterDueStartDate = some (getCurrentDate nowAt validTz tz) ∧
    (parseFilterInputs "uncompleted" (some (.obj f)) none none false tz validTz
        nowAt).filterDueEndDate = none ∧
    (parseFilterInputs "uncompleted" (some (.obj f)) none none true tz validTz
        nowAt).filterDueStartDate = none ∧
    (parseFilterInputs "uncompleted" (some (.obj f)) none none true tz validTz
        nowAt).filterDueEndDate = none ∧
    ∀ task : TaskDict, duePassesB none none task = true := by
  exact ⟨rfl, rfl, rfl, rfl, duePasses_open⟩

/-- C7: evaluation at the failing input.  On the completed path an
unrecognized timezone name is fatal: the operation returns an error
response instead of falling back to local time (the source even logs
a fallback message before returning the error).  The helpers of the
uncompleted path do fall back non-fatally, as the second and third
conjuncts show. -/
theorem claim_c7_theorem :
    runFilter "completed" none none none (some "2024-01-01") none false true none false
        (some "Not/AZone") (fun _ => false) (fun _ => ⟨2024, 1, 1⟩) [] (fun _ _ _ => [])
      = .errorResp "Invalid timezone specified: Not/AZone" ∧
    fetchTasksByStatus "uncompleted" (some "2024-01-01") none false (some "Not/AZone")
        (fun _ => false) = .callUncompletedFetch ∧
    getCurrentDate (fun o => if o.isSome then ⟨2024, 3, 2⟩ else ⟨2024, 3, 1⟩)
        (fun _ => false) (some "Not/AZone") = ⟨2024, 3, 1⟩ := by
  exact ⟨rfl, rfl, rfl⟩

/-- C8: the priority sort is descending by the priority key and stable
(the subsequence of tasks at any fixed priority is unchanged), and it
permutes the input. -/
theorem claim_c8 (ts : List TaskDict) :
    (sortByPriorityDesc ts).Pairwise (fun a b => sortKeyPriority b ≤ sortKeyPriority a) ∧
    (∀ n : Int, (sortByPriorityDesc ts).filter (fun t => sortKeyPriority t == n)
      = ts.filter (fun t => sortKeyPriority t == n)) ∧
    (sortByPriorityDesc ts).Perm ts :=
  ⟨sortByPriorityDesc_pairwise ts, fun n => sortByPriorityDesc_filter ts n,
    sortByPriorityDesc_perm ts⟩

/-- C9: the filtering step is idempotent for any fixed configuration:
applying it to its own output returns the same list. -/
theorem claim_c9 (status : String) (filters : Filters) (startB endB : Option PyDate)
    (tagL : Option String) (ts : List TaskDict) :
    filterTaskList (filterTaskList ts status filters startB endB tagL) status filters
        startB endB tagL
      = filterTaskList ts status filters startB endB tagL := by
  simp only [filterTaskList_as_filter]
  exact filter_idem _ _

/-- C10, counterexample: a task with an absent tags field passes the
tags criterion for the empty filter value, because the source defaults
`task.get("tags", [])`; so passing is not equivalent to the tags field
itself being a list whose set equals set(V). -/
theorem claim_c10_counterexample :
    taskMatchesFilters [("tags", .vList ([] : List String))] ([] : TaskDict) = true ∧
    dictGet ([] : TaskDict) "tags" = none := by
  exact ⟨rfl, rfl⟩

/-- C10, amended: with the tags value taken as the empty list when the
key is absent, the tags criterion holds iff that value is a list whose
element set equals the element set of the filter value — subsets and
single shared tags are not sufficient — while the tag_label check asks
only membership of the single label. -/
theorem claim_c10_amended (task : TaskDict) (V : List String) (lbl : String) :
    (taskMatchesFilters [("tags", .vList V)] task = true ↔ specTagsSetCriterion task V) ∧
    (tagPassesB (some lbl) task = true ↔ specTagMembership task lbl) := by
  constructor
  · unfold taskMatchesFilters criterionMatches specTagsSetCriterion listSetEq
    simp only [List.all_cons, List.all_nil, Bool.and_true]
    cases hvt : (dictGet task "tags").getD (.vList []) with
    | vList xs =>
      simp only [beq_self_eq_true, if_true, Bool.and_eq_true, List.all_eq_true]
      constructor
      · rintro ⟨h1, h2⟩ x
        exact ⟨fun hx => by simpa using h1 x hx, fun hx => by simpa using h2 x hx⟩
      · intro h
        exact ⟨fun x hx => by simpa using (h x).mp hx,
          fun x hx => by simpa using (h x).mpr hx⟩
    | vStr s => simp
    | vInt n => simp
    | vBool b => simp
    | vNull => simp
  · unfold tagPassesB specTagMembership
    by_cases hl : lbl = ""
    · subst hl
      constructor
      · intro _
        exact Or.inl rfl
      · intro _
        rfl
    · have hne : lbl.isEmpty = false := by
        rw [Bool.eq_false_iff]
        intro he
        exact hl ((String.isEmpty_iff lbl).mp he)
      cases hvt : (dictGet task "tags").getD (.vList []) with
      | vList xs => simp [hne, hl]
      | vStr s => simp [hne, hl]
      | vInt n => simp [hne, hl]
      | vBool b => simp [hne, hl]
      | vNull => simp [hne, hl]

end TickTickMcp
